import Mathlib

/-!
# Verification of the ufugaji-bioid muzzle-print matching core

Shallow embedding of the biometric matching engine:
`src/utils/imageProcessing.js` (perceptual hash, Hamming distance,
CLAHE-style contrast equalization, feature extraction, cosine similarity)
and the per-candidate scoring / ranking logic of the Matcher page
(`processAndMatch`).

JavaScript numbers are modelled by `ℚ` where the source only performs
field operations and floors (perceptual hash, CLAHE), and by `ℝ` where
the source calls `Math.sqrt` (similarity, feature extraction).  Flat
RGBA pixel arrays are modelled as functions `ℕ → ℕ` from flat index to
8-bit sample; out-of-range reads never occur on the inputs considered.
-/

namespace Ufugaji

/-- An RGBA image: `width`, `height`, and the flat pixel array
`data`, indexed by `(y * width + x) * 4 + channel`. -/
structure ImageData where
  width : ℕ
  height : ℕ
  data : ℕ → ℕ

/-! ## hammingDistance (imageProcessing.js lines 74–83)

```js
export function hammingDistance(hash1, hash2) {
  if (hash1.length !== hash2.length) return 64;
  let distance = 0;
  for (let i = 0; i < hash1.length; i++) {
    if (hash1[i] !== hash2[i]) distance++;
  }
  return distance;
}
```
Hashes are strings; we model them as `List Char`. -/

/-- The counting loop of `hammingDistance`, walking both strings in step. -/
def countDiffs : List Char → List Char → ℕ
  | a :: as, b :: bs => (if a ≠ b then 1 else 0) + countDiffs as bs
  | _, _ => 0

/-- `hammingDistance` from imageProcessing.js. -/
def hammingDistance (hash1 hash2 : List Char) : ℕ :=
  if hash1.length ≠ hash2.length then 64 else countDiffs hash1 hash2

/-! ## calculateSimilarity (imageProcessing.js lines 782–803)

```js
export function calculateSimilarity(vector1, vector2) {
  if (vector1.length !== vector2.length) { return 0; }
  let dotProduct = 0; let norm1 = 0; let norm2 = 0;
  for (let i = 0; i < vector1.length; i++) {
    dotProduct += vector1[i] * vector2[i];
    norm1 += vector1[i] * vector1[i];
    norm2 += vector2[i] * vector2[i];
  }
  if (norm1 === 0 || norm2 === 0) { return 0; }
  const similarity = dotProduct / (Math.sqrt(norm1) * Math.sqrt(norm2));
  return Math.max(0, Math.min(100, similarity * 100));
}
```
-/

/-- The accumulation loop of `calculateSimilarity`: walks both vectors in
step and returns `(dotProduct, norm1, norm2)`. -/
def loopSums : List ℝ → List ℝ → ℝ × ℝ × ℝ
  | a :: as, b :: bs =>
    let s := loopSums as bs
    (a * b + s.1, a * a + s.2.1, b * b + s.2.2)
  | _, _ => (0, 0, 0)

/-- `calculateSimilarity` from imageProcessing.js: cosine similarity,
scaled ×100 and clamped to [0,100]; 0 on length mismatch or a zero norm. -/
noncomputable def calculateSimilarity (vector1 vector2 : List ℝ) : ℝ :=
  if vector1.length ≠ vector2.length then 0
  else
    let s := loopSums vector1 vector2
    let dotProduct := s.1
    let norm1 := s.2.1
    let norm2 := s.2.2
    if norm1 = 0 ∨ norm2 = 0 then 0
    else
      max 0 (min 100 (dotProduct / (Real.sqrt norm1 * Real.sqrt norm2) * 100))

/-- Modelled from the spec: the cosine metric as §4.5 describes it:
`(A·B) / (‖A‖·‖B‖)`, mapped to 0 when either norm is 0, else scaled ×100
and clamped to [0,100]. -/
noncomputable def specCosineSimilarity (A B : List ℝ) : ℝ :=
  let dot := ((A.zip B).map fun p => p.1 * p.2).sum
  let nA := Real.sqrt ((A.map fun x => x * x).sum)
  let nB := Real.sqrt ((B.map fun x => x * x).sum)
  if nA = 0 ∨ nB = 0 then 0 else max 0 (min 100 (dot / (nA * nB) * 100))

/-- Modelled from the spec: euclidean distance between two vectors. -/
noncomputable def euclideanDistance (A B : List ℝ) : ℝ :=
  Real.sqrt (((A.zip B).map fun p => (p.1 - p.2) ^ 2).sum)

/-- Modelled from the spec: the combined raw similarity §4.5 claims:
`0.7 × cosine + 0.3 × (100 / (1 + euclideanDistance))`. -/
noncomputable def specRawSimilarity (A B : List ℝ) : ℝ :=
  0.7 * specCosineSimilarity A B + 0.3 * (100 / (1 + euclideanDistance A B))

/-- The all-zero 28-dimensional feature vector (extractable from an
all-black image, so a genuine FeatureVector). -/
def zeroVec28 : List ℝ := List.replicate 28 0

/-! ## calculatePerceptualHash (imageProcessing.js lines 10–68)

```js
export function calculatePerceptualHash(imageData) {
  const { width, height } = imageData;
  const size = 32;
  const resized = new Float32Array(size * size);
  const scaleX = width / size;
  const scaleY = height / size;
  for (let y = 0; y < size; y++) {
    for (let x = 0; x < size; x++) {
      const srcX = Math.floor(x * scaleX);
      const srcY = Math.floor(y * scaleY);
      const idx = (srcY * width + srcX) * 4;
      const gray = 0.299 * imageData.data[idx] + 0.587 * imageData.data[idx + 1]
                 + 0.114 * imageData.data[idx + 2];
      resized[y * size + x] = gray;
    }
  }
  const rowAvg = ...;                       // rowAvg[y] = (Σ_x resized[y][x]) / 32
  const overallAvg = rowAvg.sum / size;     // = total / 1024
  let hash = '';
  for (let y = 0; y < 8; y++)
    for (let x = 0; x < 8; x++)
      hash += resized[y * size + x] > overallAvg ? '1' : '0';
  // binary → hex, 4 bits per hex digit
  let hexHash = '';
  for (let i = 0; i < hash.length; i += 4)
    hexHash += parseInt(hash.substr(i, 4), 2).toString(16);
  return hexHash;
}
```
-/

/-- Luminance of the pixel starting at flat byte index `idx`. -/
def grayAtQ (img : ImageData) (idx : ℕ) : ℚ :=
  299 / 1000 * (img.data idx : ℚ) + 587 / 1000 * (img.data (idx + 1) : ℚ) +
    114 / 1000 * (img.data (idx + 2) : ℚ)

/-- Cell `(y, x)` of the 32×32 nearest-sample downsample grid. -/
def resizedGray (img : ImageData) (y x : ℕ) : ℚ :=
  let scaleX : ℚ := (img.width : ℚ) / 32
  let scaleY : ℚ := (img.height : ℚ) / 32
  let srcX : ℕ := (Int.floor ((x : ℚ) * scaleX)).toNat
  let srcY : ℕ := (Int.floor ((y : ℚ) * scaleY)).toNat
  grayAtQ img ((srcY * img.width + srcX) * 4)

/-- Mean luminance over the whole 32×32 grid, computed as the source does:
row averages first, then the average of the row averages. -/
def hashOverallAvg (img : ImageData) : ℚ :=
  (((List.range 32).map fun y =>
    ((List.range 32).map fun x => resizedGray img y x).sum / 32).sum) / 32

/-- The 64-character binary hash string: one bit per cell of the top-left
8×8 block of the 32×32 grid, `'1'` iff the cell exceeds the overall mean. -/
def binaryHash (img : ImageData) : List Char :=
  (List.range 8).flatMap fun y =>
    (List.range 8).map fun x =>
      if hashOverallAvg img < resizedGray img y x then '1' else '0'

/-- Lowercase hex digit for a value in 0..15, as `toString(16)` yields:
codepoint 48 is `'0'` and 87 + 10 = 97 is `'a'`. -/
def hexDigit (n : ℕ) : Char :=
  if n < 10 then Char.ofNat (48 + n) else Char.ofNat (87 + n)

/-- Numeric value of one bit character. -/
def bitVal (c : Char) : ℕ := if c = '1' then 1 else 0

/-- Binary-string → hex-string conversion, 4 bits per hex digit
(the hash length is always a multiple of 4). -/
def hexOfBits : List Char → List Char
  | b0 :: b1 :: b2 :: b3 :: rest =>
    hexDigit (8 * bitVal b0 + 4 * bitVal b1 + 2 * bitVal b2 + bitVal b3) ::
      hexOfBits rest
  | _ => []

/-- `calculatePerceptualHash` from imageProcessing.js. -/
def calculatePerceptualHash (img : ImageData) : List Char :=
  hexOfBits (binaryHash img)

/-- A 1×1 image with pixel RGBA = (100, 100, 100, 255). -/
def cex3Img : ImageData :=
  ⟨1, 1, fun i => if i = 3 then 255 else 100⟩

/-! ## applyCLAHE (imageProcessing.js lines 556–612)

```js
export function applyCLAHE(imageData, clipLimit = 2.0, tileSize = 8) {
  const { data, width, height } = imageData;
  const result = new Uint8ClampedArray(data.length);
  const tileWidth = Math.floor(width / tileSize);
  const tileHeight = Math.floor(height / tileSize);
  for (let ty = 0; ty < tileSize; ty++) {
    for (let tx = 0; tx < tileSize; tx++) {
      const startX = tx * tileWidth;  const startY = ty * tileHeight;
      const endX = Math.min(startX + tileWidth, width);
      const endY = Math.min(startY + tileHeight, height);
      // histogram of data[(y*width+x)*4] over the tile, and pixelCount
      const clipLimitCount = Math.floor((clipLimit * pixelCount) / 256);
      // clip every bin to clipLimitCount
      // cdf[i] = cdf[i-1] + histogram[i]
      const cdfMin = cdf.find(val => val > 0) || 0;
      const scale = (255 * 256) / (pixelCount - cdfMin);
      // newValue = floor(((cdf[gray] - cdfMin) * scale) / 256), clamped 0..255
      // result[idx..idx+2] = newValue, result[idx+3] = data[idx+3]
    }
  }
  return { data: result, width, height };
}
```
Since `tileSize * tileWidth ≤ width`, the `Math.min` in `endX` never cuts
a tile short; pixels at `x ≥ tileSize * tileWidth` (or
`y ≥ tileSize * tileHeight`) are written by no tile and stay 0 in the
freshly allocated result array.  The result array is modelled as a
function from flat byte index to sample. -/

/-- The luminance histogram of a tile: how many pixels with
`startX ≤ x < endX`, `startY ≤ y < endY` have `data[(y*width+x)*4] = bin`.
Used both to build the CLAHE histogram and to recompute a histogram of
the output. -/
def tileHistBin (data : ℕ → ℕ) (width startX endX startY endY bin : ℕ) : ℕ :=
  (((List.range (endY - startY)).map fun dy =>
    (((List.range (endX - startX)).map fun dx =>
      if data (((startY + dy) * width + (startX + dx)) * 4) = bin
      then 1 else 0).sum)).sum)

/-- Number of pixels in a tile. -/
def tilePixelCount (startX endX startY endY : ℕ) : ℕ :=
  (endY - startY) * (endX - startX)

/-- `Math.floor((clipLimit * pixelCount) / 256)`. -/
def clipLimitCountOf (clipLimit : ℚ) (pixelCount : ℕ) : ℕ :=
  (Int.floor (clipLimit * (pixelCount : ℚ) / 256)).toNat

/-- One bin of the clipped histogram the CDF is built from. -/
def clippedHistBin (data : ℕ → ℕ) (width startX endX startY endY : ℕ)
    (clipLimit : ℚ) (bin : ℕ) : ℕ :=
  min (tileHistBin data width startX endX startY endY bin)
    (clipLimitCountOf clipLimit (tilePixelCount startX endX startY endY))

/-- The cumulative distribution function of the clipped histogram:
`cdf[v] = Σ_{j ≤ v} clippedHist[j]`. -/
def tileCdf (data : ℕ → ℕ) (width startX endX startY endY : ℕ)
    (clipLimit : ℚ) (v : ℕ) : ℕ :=
  ((List.range (v + 1)).map fun j =>
    clippedHistBin data width startX endX startY endY clipLimit j).sum

/-- `cdf.find(val => val > 0) || 0`. -/
def tileCdfMin (data : ℕ → ℕ) (width startX endX startY endY : ℕ)
    (clipLimit : ℚ) : ℕ :=
  ((((List.range 256).map fun i =>
    tileCdf data width startX endX startY endY clipLimit i).find?
      fun v => decide (0 < v)).getD 0)

/-- The remapped output value for a pixel of gray level `g` in the tile. -/
def remapPixel (data : ℕ → ℕ) (width startX endX startY endY : ℕ)
    (clipLimit : ℚ) (g : ℕ) : ℕ :=
  let pc := tilePixelCount startX endX startY endY
  let cdfMin := tileCdfMin data width startX endX startY endY clipLimit
  let scale : ℚ := 255 * 256 / ((pc : ℚ) - (cdfMin : ℚ))
  let newValue : ℤ :=
    Int.floor (((tileCdf data width startX endX startY endY clipLimit g : ℚ) -
      (cdfMin : ℚ)) * scale / 256)
  (min 255 (max 0 newValue)).toNat

/-- `applyCLAHE` from imageProcessing.js, as a map from flat byte index of
the result array to its 8-bit sample. -/
def applyCLAHE (data : ℕ → ℕ) (width height : ℕ) (clipLimit : ℚ)
    (tileSize : ℕ) : ℕ → ℕ :=
  fun j =>
    let i := j / 4
    let ch := j % 4
    let x := i % width
    let y := i / width
    let tileW := width / tileSize
    let tileH := height / tileSize
    if i < width * height ∧ x < tileSize * tileW ∧ y < tileSize * tileH then
      if ch = 3 then data (i * 4 + 3)
      else
        let tx := x / tileW
        let ty := y / tileH
        let startX := tx * tileW
        let startY := ty * tileH
        let endX := min (startX + tileW) width
        let endY := min (startY + tileH) height
        remapPixel data width startX endX startY endY clipLimit (data (i * 4))
    else 0

/-- The flat pixel array of an 8×8 image whose pixels are all
RGBA = (100, 100, 100, 255). -/
def cex7data : ℕ → ℕ := fun i => if i % 4 = 3 then 255 else 100

/-! ## extractFeatureVector (imageProcessing.js lines 655–777)

The 28 features, in order: 16 grid means (4×4), 4 quadrant edge
densities (2×2), 4 quadrant texture variances (2×2), 4 radial band
means; every raw value then clamped into [0,1] by
`features.map(f => Math.max(0, Math.min(1, f)))`. -/

/-- Luminance of pixel `i` of a flat RGBA array
(`grayData[i] = 0.299 data[4i] + 0.587 data[4i+1] + 0.114 data[4i+2]`). -/
noncomputable def grayAtR (data : ℕ → ℕ) (i : ℕ) : ℝ :=
  0.299 * (data (i * 4) : ℝ) + 0.587 * (data (i * 4 + 1) : ℝ) +
    0.114 * (data (i * 4 + 2) : ℝ)

/-- `Σ_{a ≤ k < b} f k`, the shape of every `for (k = a; k < b; k++)`
accumulation in the extractor. -/
noncomputable def rangeSumR (a b : ℕ) (f : ℕ → ℝ) : ℝ :=
  ((List.range (b - a)).map fun k => f (a + k)).sum

/-- Feature set 1: mean intensity of grid cell `(gy, gx)` of the 4×4 grid,
normalized by 255. -/
noncomputable def gridMeanFeature (data : ℕ → ℕ) (w h gy gx : ℕ) : ℝ :=
  let cellW := w / 4
  let cellH := h / 4
  let startX := gx * cellW
  let startY := gy * cellH
  let yEnd := min (startY + cellH) h
  let xEnd := min (startX + cellW) w
  let sum := rangeSumR startY yEnd fun y =>
    rangeSumR startX xEnd fun x => grayAtR data (y * w + x)
  let count : ℕ := (yEnd - startY) * (xEnd - startX)
  sum / (count : ℝ) / 255

/-- Feature set 2: edge density of quadrant `(qy, qx)`: the fraction of
interior pixels whose horizontal or vertical luminance difference
exceeds 25. -/
noncomputable def edgeDensityFeature (data : ℕ → ℕ) (w h qy qx : ℕ) : ℝ :=
  let quadW := w / 2
  let quadH := h / 2
  let startX := qx * quadW
  let startY := qy * quadH
  let yEnd := min (startY + quadH) (h - 1)
  let xEnd := min (startX + quadW) (w - 1)
  let edgeCount : ℕ :=
    (((List.range (yEnd - (startY + 1))).map fun dy =>
      (((List.range (xEnd - (startX + 1))).map fun dx =>
        let idx := (startY + 1 + dy) * w + (startX + 1 + dx)
        if 25 < |grayAtR data idx - grayAtR data (idx + 1)| ∨
            25 < |grayAtR data idx - grayAtR data (idx + w)|
        then 1 else 0).sum)).sum)
  let totalPixels : ℕ := (yEnd - (startY + 1)) * (xEnd - (startX + 1))
  (edgeCount : ℝ) / (totalPixels : ℝ)

/-- Feature set 3: standard deviation of luminance over quadrant
`(qy, qx)`, normalized by 255. -/
noncomputable def textureVarianceFeature (data : ℕ → ℕ) (w h qy qx : ℕ) : ℝ :=
  let quadW := w / 2
  let quadH := h / 2
  let startX := qx * quadW
  let startY := qy * quadH
  let yEnd := min (startY + quadH) h
  let xEnd := min (startX + quadW) w
  let count : ℕ := (yEnd - startY) * (xEnd - startX)
  let sum := rangeSumR startY yEnd fun y =>
    rangeSumR startX xEnd fun x => grayAtR data (y * w + x)
  let mean := sum / (count : ℝ)
  let varianceSum := rangeSumR startY yEnd fun y =>
    rangeSumR startX xEnd fun x =>
      (grayAtR data (y * w + x) - mean) * (grayAtR data (y * w + x) - mean)
  Real.sqrt (varianceSum / (count : ℝ)) / 255

/-- Feature set 4: mean intensity of the `r`-th of 4 concentric radial
bands around the image center, normalized by 255; 0 when the band holds
no pixel. -/
noncomputable def radialFeature (data : ℕ → ℕ) (w h r : ℕ) : ℝ :=
  let centerX := w / 2
  let centerY := h / 2
  let maxRadius : ℕ := min centerX centerY
  let innerRadius : ℝ := (r : ℝ) / 4 * (maxRadius : ℝ)
  let outerRadius : ℝ := ((r : ℝ) + 1) / 4 * (maxRadius : ℝ)
  let inRing : ℕ → ℕ → Prop := fun y x =>
    let dx : ℝ := (x : ℝ) - (centerX : ℝ)
    let dy : ℝ := (y : ℝ) - (centerY : ℝ)
    let dist := Real.sqrt (dx * dx + dy * dy)
    innerRadius ≤ dist ∧ dist < outerRadius
  let sum : ℝ := rangeSumR 0 h fun y =>
    rangeSumR 0 w fun x =>
      if inRing y x then grayAtR data (y * w + x) else 0
  let count : ℕ :=
    (((List.range h).map fun y =>
      (((List.range w).map fun x => if inRing y x then 1 else 0).sum)).sum)
  if 0 < count then sum / (count : ℝ) / 255 else 0

/-- `extractFeatureVector` from imageProcessing.js: the 28 raw features
in source order, each clamped into [0,1]. -/
noncomputable def extractFeatureVector (data : ℕ → ℕ) (w h : ℕ) : List ℝ :=
  ((((List.range 4).flatMap fun gy =>
      (List.range 4).map fun gx => gridMeanFeature data w h gy gx) ++
    ((List.range 2).flatMap fun qy =>
      (List.range 2).map fun qx => edgeDensityFeature data w h qy qx) ++
    ((List.range 2).flatMap fun qy =>
      (List.range 2).map fun qx => textureVarianceFeature data w h qy qx) ++
    ((List.range 4).map fun r => radialFeature data w h r)).map
      fun f => max 0 (min 1 f))

/-! ## processAndMatch per-candidate scoring (Matcher page, lines 170–216)

```js
const results = cattle.map(cattle => {
  const similarity = calculateSimilarity(queryFeatures, cattle.featureVector);
  let isExactDuplicate = false;
  let duplicateScore = 0;
  if (cattle.perceptualHash && queryHash) {
    const hashMatch = hammingDistance(queryHash, cattle.perceptualHash);
    duplicateScore = 100 - (hashMatch / 4096 * 100);
    isExactDuplicate = hashMatch <= 150; // Very close match
  }
  let bioDataMatch = 0;
  if (cattle.bioData && cattle.bioData.vector) {
    const bioVector = cattle.bioData.vector;
    let bioSum = 0;
    for (let i = 0; i < 5; i++) { bioSum += bioVector[i]; }
    bioDataMatch = (bioSum / 5) * 100;
  }
  const hasBioData = cattle.bioData && cattle.bioData.vector;
  const adjustedSimilarity = isExactDuplicate
    ? 99.9
    : hasBioData
      ? (similarity * 0.75) + (bioDataMatch * 0.25)
      : validationResult.confidence >= 0.60
        ? Math.min(100, similarity * 1.05)
        : similarity;
  return { ...cattle, matchPercentage: adjustedSimilarity,
           rawPercentage: similarity,
           bioDataMatch: hasBioData ? Math.round(bioDataMatch) : null,
           isExactDuplicate, duplicateScore };
});
results.sort((a, b) => b.matchPercentage - a.matchPercentage);
```
-/

/-- An enrolled cattle record, as read by `processAndMatch`. -/
structure Cattle where
  featureVector : List ℝ
  perceptualHash : Option (List Char)
  bioData : Option (List ℝ)

/-- One scored match result: the fields `processAndMatch` attaches, plus
the candidate's original position `idx` in the enrollment list, recorded
so that sort stability can be stated. -/
structure MatchResult where
  matchPercentage : ℝ
  rawPercentage : ℝ
  bioDataMatch : Option ℤ
  isExactDuplicate : Bool
  duplicateScore : ℝ
  idx : ℕ

/-- The bio-data score: average of the first five vector entries, ×100. -/
noncomputable def bioDataMatchScore (bioVector : List ℝ) : ℝ :=
  (((List.range 5).map fun i => bioVector.getD i 0).sum / 5) * 100

/-- Per-candidate scoring of `processAndMatch`. -/
noncomputable def scoreOne (queryFeatures : List ℝ) (queryHash : Option (List Char))
    (confidence : ℝ) (idx : ℕ) (c : Cattle) : MatchResult :=
  let similarity := calculateSimilarity queryFeatures c.featureVector
  let hashDist? : Option ℕ :=
    match c.perceptualHash, queryHash with
    | some ch, some qh => some (hammingDistance qh ch)
    | _, _ => none
  let isExactDuplicate : Bool :=
    match hashDist? with
    | some hm => decide (hm ≤ 150)
    | none => false
  let duplicateScore : ℝ :=
    match hashDist? with
    | some hm => 100 - ((hm : ℝ) / 4096 * 100)
    | none => 0
  let bioDataMatch : ℝ :=
    match c.bioData with
    | some v => bioDataMatchScore v
    | none => 0
  let hasBioData := c.bioData.isSome
  let adjustedSimilarity : ℝ :=
    if isExactDuplicate then 99.9
    else if hasBioData then similarity * 0.75 + bioDataMatch * 0.25
    else if confidence ≥ 0.60 then min 100 (similarity * 1.05)
    else similarity
  { matchPercentage := adjustedSimilarity
    rawPercentage := similarity
    bioDataMatch := if hasBioData then some ⌊bioDataMatch + 1 / 2⌋ else none
    isExactDuplicate := isExactDuplicate
    duplicateScore := duplicateScore
    idx := idx }

/-- The duplicate-override condition of `processAndMatch`: both sides have
a fingerprint and the Hamming distance is within the threshold 150. -/
def isDupCase (queryHash : Option (List Char)) (c : Cattle) : Prop :=
  ∃ qs cs, queryHash = some qs ∧ c.perceptualHash = some cs ∧
    hammingDistance qs cs ≤ 150

/-- Scoring of the whole reference list, attaching enrollment positions
starting at `i` (the JS `cattle.map` visits candidates in list order). -/
noncomputable def scoreAllFrom (queryFeatures : List ℝ) (queryHash : Option (List Char))
    (confidence : ℝ) (i : ℕ) : List Cattle → List MatchResult
  | [] => []
  | c :: cs =>
    scoreOne queryFeatures queryHash confidence i c ::
      scoreAllFrom queryFeatures queryHash confidence (i + 1) cs

/-- `results.sort((a, b) => b.matchPercentage - a.matchPercentage)`:
JavaScript `Array.prototype.sort` is stable and a stable sort's output is
uniquely determined, so a stable descending insertion sort is a faithful
model.  `insertDesc` inserts an element that came before every element of
`l` in the input, placing it before `y` exactly when it need not sink
below `y`. -/
noncomputable def insertDesc (x : MatchResult) : List MatchResult → List MatchResult
  | [] => [x]
  | y :: l =>
    if x.matchPercentage < y.matchPercentage then y :: insertDesc x l
    else x :: y :: l

/-- Stable insertion sort, descending by `matchPercentage`. -/
noncomputable def sortDesc : List MatchResult → List MatchResult
  | [] => []
  | x :: l => insertDesc x (sortDesc l)

/-- The ranked match list `processAndMatch` produces (the `matches` field
of its result): score every candidate, then sort.  An empty reference
list short-circuits to `[]` in the source, which coincides with sorting
the empty scored list. -/
noncomputable def processMatches (queryFeatures : List ℝ)
    (queryHash : Option (List Char)) (confidence : ℝ)
    (cattle : List Cattle) : List MatchResult :=
  sortDesc (scoreAllFrom queryFeatures queryHash confidence 0 cattle)

/-- The ordering relation the ranked output satisfies: a strictly larger
combined percentage, or a tie broken by enrollment order. -/
def beforeInSort (a b : MatchResult) : Prop :=
  b.matchPercentage < a.matchPercentage ∨
    (a.matchPercentage = b.matchPercentage ∧ a.idx < b.idx)

/-- Query fingerprint for the duplicate-threshold counterexample:
all-zero bits. -/
def cexDupQueryHash : List Char := List.replicate 16 '0'

/-- Candidate fingerprint for the duplicate-threshold counterexample:
all-one bits — the maximally distant 64-bit fingerprint. -/
def cexDupCattleHash : List Char := List.replicate 16 'f'

/-! ## Lemmas about the similarity loop -/

theorem countDiffs_eq_countP (h1 : List Char) :
    ∀ h2 : List Char, h1.length = h2.length →
      countDiffs h1 h2 =
        ((h1.zip h2).filter fun p => p.1 ≠ p.2).length := by
  induction h1 with
  | nil => intro h2 hlen; cases h2 <;> simp [countDiffs] at *
  | cons a as ih =>
    intro h2 hlen
    cases h2 with
    | nil => simp at hlen
    | cons b bs =>
      simp only [List.length_cons, Nat.succ.injEq] at hlen
      by_cases hab : a = b <;>
        simp [countDiffs, List.zip_cons_cons, List.filter, hab, ih bs hlen,
          List.zip, Nat.add_comm]

theorem loopSums_fst (v1 : List ℝ) :
    ∀ v2 : List ℝ, (loopSums v1 v2).1 = ((v1.zip v2).map fun p => p.1 * p.2).sum := by
  induction v1 with
  | nil => intro v2; simp [loopSums]
  | cons a as ih =>
    intro v2
    cases v2 with
    | nil => simp [loopSums]
    | cons b bs => simp [loopSums, ih bs]

theorem loopSums_norm1 (v1 : List ℝ) :
    ∀ v2 : List ℝ, v1.length = v2.length →
      (loopSums v1 v2).2.1 = ((v1.map fun x => x * x).sum) := by
  induction v1 with
  | nil => intro v2 _; simp [loopSums]
  | cons a as ih =>
    intro v2 hlen
    cases v2 with
    | nil => simp at hlen
    | cons b bs =>
      simp only [List.length_cons, Nat.succ.injEq] at hlen
      simp [loopSums, ih bs hlen]

theorem loopSums_norm2 (v1 : List ℝ) :
    ∀ v2 : List ℝ, v1.length = v2.length →
      (loopSums v1 v2).2.2 = ((v2.map fun x => x * x).sum) := by
  induction v1 with
  | nil => intro v2 hlen; cases v2 <;> simp [loopSums] at *
  | cons a as ih =>
    intro v2 hlen
    cases v2 with
    | nil => simp at hlen
    | cons b bs =>
      simp only [List.length_cons, Nat.succ.injEq] at hlen
      simp [loopSums, ih bs hlen]

theorem loopSums_norm1_zero (v1 : List ℝ) (h : ∀ x ∈ v1, x = 0) :
    ∀ v2 : List ℝ, (loopSums v1 v2).2.1 = 0 := by
  induction v1 with
  | nil => intro v2; cases v2 <;> simp [loopSums]
  | cons a as ih =>
    intro v2
    cases v2 with
    | nil => simp [loopSums]
    | cons b bs =>
      have ha : a = 0 := h a (by simp)
      have ih2 := ih (fun x hx => h x (by simp [hx])) bs
      simp [loopSums, ha, ih2]

theorem loopSums_norm2_zero (v2 : List ℝ) (h : ∀ x ∈ v2, x = 0) :
    ∀ v1 : List ℝ, (loopSums v1 v2).2.2 = 0 := by
  induction v2 with
  | nil => intro v1; cases v1 <;> simp [loopSums]
  | cons b bs ih =>
    intro v1
    cases v1 with
    | nil => simp [loopSums]
    | cons a as =>
      have hb : b = 0 := h b (by simp)
      have ih2 := ih (fun x hx => h x (by simp [hx])) as
      simp [loopSums, hb, ih2]

theorem sq_sum_pos (A : List ℝ) (h : ∃ x ∈ A, x ≠ 0) :
    0 < ((A.map fun x => x * x).sum) := by
  induction A with
  | nil => simp at h
  | cons a as ih =>
    rcases h with ⟨x, hx, hxne⟩
    have hs : (0:ℝ) ≤ ((as.map fun x => x * x).sum) := by
      apply List.sum_nonneg
      intro y hy
      simp only [List.mem_map] at hy
      rcases hy with ⟨z, _, rfl⟩
      exact mul_self_nonneg z
    rcases List.mem_cons.mp hx with rfl | hmem
    · have hxx : 0 < x * x := mul_self_pos.mpr hxne
      simp only [List.map_cons, List.sum_cons]
      linarith
    · have hpos := ih ⟨x, hmem, hxne⟩
      have ha : (0:ℝ) ≤ a * a := mul_self_nonneg a
      simp only [List.map_cons, List.sum_cons]
      linarith

theorem loopSums_self (A : List ℝ) :
    loopSums A A =
      (((A.map fun x => x * x).sum), ((A.map fun x => x * x).sum),
        ((A.map fun x => x * x).sum)) := by
  induction A with
  | nil => simp [loopSums]
  | cons a as ih => simp [loopSums, ih]

theorem calculateSimilarity_of_length_ne (A B : List ℝ) (h : A.length ≠ B.length) :
    calculateSimilarity A B = 0 := by
  simp [calculateSimilarity, h]

theorem calculateSimilarity_of_left_zero (A B : List ℝ) (h : ∀ x ∈ A, x = 0) :
    calculateSimilarity A B = 0 := by
  by_cases hlen : A.length = B.length
  · have h1 : (loopSums A B).2.1 = 0 := loopSums_norm1_zero A h B
    simp [calculateSimilarity, hlen, h1]
  · simp [calculateSimilarity, hlen]

theorem calculateSimilarity_of_right_zero (A B : List ℝ) (h : ∀ x ∈ B, x = 0) :
    calculateSimilarity A B = 0 := by
  by_cases hlen : A.length = B.length
  · have h2 : (loopSums A B).2.2 = 0 := loopSums_norm2_zero B h A
    simp [calculateSimilarity, hlen, h2]
  · simp [calculateSimilarity, hlen]

/-! ## Claims C8, C9, C2, C10 -/

/-- C8: `calculateSimilarity` returns 0, without raising, on unequal lengths
and on any all-zero argument. -/
theorem calcSim_zero_on_mismatch_or_zero_norm (A B : List ℝ) :
    (A.length ≠ B.length → calculateSimilarity A B = 0) ∧
    ((∀ x ∈ A, x = 0) → calculateSimilarity A B = 0) ∧
    ((∀ x ∈ B, x = 0) → calculateSimilarity A B = 0) :=
  ⟨calculateSimilarity_of_length_ne A B,
    calculateSimilarity_of_left_zero A B,
    calculateSimilarity_of_right_zero A B⟩

/-- Witness for C8 at concrete inputs: a length mismatch, an all-zero left
vector, and an all-zero right vector, each yielding similarity 0. -/
theorem calcSim_zero_on_mismatch_or_zero_norm_witness :
    calculateSimilarity [(1:ℝ)] [1, 2] = 0 ∧
    calculateSimilarity [(0:ℝ), 0] [3, 4] = 0 ∧
    calculateSimilarity [(3:ℝ), 4] [0, 0] = 0 :=
  ⟨(calcSim_zero_on_mismatch_or_zero_norm [(1:ℝ)] [1, 2]).1 (by norm_num),
    (calcSim_zero_on_mismatch_or_zero_norm [(0:ℝ), 0] [3, 4]).2.1
      (by intro x hx; simpa using hx),
    (calcSim_zero_on_mismatch_or_zero_norm [(3:ℝ), 4] [0, 0]).2.2
      (by intro x hx; simpa using hx)⟩

/-- Counterexample to C9: self-similarity of the all-zero feature vector is
0 (the zero-norm guard fires), not 100. -/
theorem calcSim_self_zeroVec_ne_100 :
    calculateSimilarity zeroVec28 zeroVec28 ≠ 100 := by
  have h0 : calculateSimilarity zeroVec28 zeroVec28 = 0 :=
    calculateSimilarity_of_left_zero _ _ (by
      intro x hx
      simpa [zeroVec28] using List.eq_of_mem_replicate hx)
  rw [h0]
  norm_num

/-- C9 (amended): for every feature vector with at least one nonzero
component, self-similarity is exactly 100. -/
theorem calcSim_self_eq_100 (A : List ℝ) (h : ∃ x ∈ A, x ≠ 0) :
    calculateSimilarity A A = 100 := by
  have hS : 0 < ((A.map fun x => x * x).sum) := sq_sum_pos A h
  have hne : ((A.map fun x => x * x).sum) ≠ 0 := ne_of_gt hS
  simp only [calculateSimilarity, loopSums_self, ne_eq, not_true_eq_false,
    ite_false, if_false]
  rw [if_neg (by simpa using hne), Real.mul_self_sqrt hS.le, div_self hne,
    one_mul]
  norm_num

/-- Witness for C9 (amended) at the concrete vector `[1]`. -/
theorem calcSim_self_eq_100_witness :
    (∃ x ∈ [(1:ℝ)], x ≠ 0) ∧ calculateSimilarity [(1:ℝ)] [(1:ℝ)] = 100 :=
  ⟨⟨1, by simp, by norm_num⟩,
    calcSim_self_eq_100 [(1:ℝ)] ⟨1, by simp, by norm_num⟩⟩

/-- Counterexample to C2: at the equal-length nonzero vectors `[1,0]` and
`[0,1]`, the code's similarity is 0 (pure clamped cosine) but the spec's
blended formula gives `0.3 × 100/(1+√2) > 0`. -/
theorem calcSim_ne_specRawSimilarity :
    calculateSimilarity [(1:ℝ), 0] [0, 1] ≠ specRawSimilarity [(1:ℝ), 0] [0, 1] := by
  have hL : calculateSimilarity [(1:ℝ), 0] [0, 1] = 0 := by
    simp only [calculateSimilarity, loopSums]
    norm_num
  have hcos : specCosineSimilarity [(1:ℝ), 0] [0, 1] = 0 := by
    simp only [specCosineSimilarity, List.zip, List.zipWith, List.map, List.sum]
    norm_num
  have hR : 0 < specRawSimilarity [(1:ℝ), 0] [0, 1] := by
    rw [specRawSimilarity, hcos]
    have hd : 0 < 1 + euclideanDistance [(1:ℝ), 0] [0, 1] := by
      have := Real.sqrt_nonneg (((([(1:ℝ), 0]).zip [0, 1]).map fun p => (p.1 - p.2) ^ 2).sum)
      rw [euclideanDistance]
      linarith
    positivity
  rw [hL]
  exact hR.ne

/-- C2 (amended): for equal-length nonzero vectors the raw pairwise
similarity is exactly the cosine similarity scaled ×100 and clamped to
[0,100]; no inverse-Euclidean term is blended in. -/
theorem calcSim_eq_specCosine (A B : List ℝ)
    (hlen : A.length = B.length) (hA : ∃ x ∈ A, x ≠ 0) (hB : ∃ x ∈ B, x ≠ 0) :
    calculateSimilarity A B = specCosineSimilarity A B := by
  have hSA : 0 < ((A.map fun x => x * x).sum) := sq_sum_pos A hA
  have hSB : 0 < ((B.map fun x => x * x).sum) := sq_sum_pos B hB
  have hsA : 0 < Real.sqrt ((A.map fun x => x * x).sum) := Real.sqrt_pos.mpr hSA
  have hsB : 0 < Real.sqrt ((B.map fun x => x * x).sum) := Real.sqrt_pos.mpr hSB
  simp only [calculateSimilarity, specCosineSimilarity,
    loopSums_fst A B, loopSums_norm1 A B hlen, loopSums_norm2 A B hlen]
  rw [if_neg (by simp [hlen]), if_neg (by simp [hSA.ne', hSB.ne']),
    if_neg (by simp [hsA.ne', hsB.ne'])]

/-- Witness for C2 (amended) at the concrete vectors `[1]` and `[2]`. -/
theorem calcSim_eq_specCosine_witness :
    ([(1:ℝ)].length = [(2:ℝ)].length) ∧
      calculateSimilarity [(1:ℝ)] [(2:ℝ)] = specCosineSimilarity [(1:ℝ)] [(2:ℝ)] :=
  ⟨rfl, calcSim_eq_specCosine [(1:ℝ)] [(2:ℝ)] rfl
    ⟨1, by simp, by norm_num⟩ ⟨2, by simp, by norm_num⟩⟩

/-- C10: `hammingDistance` returns the fixed maximum 64 on strings of
unequal length, and the count of differing positions on equal-length
strings. -/
theorem hammingDistance_spec (h1 h2 : List Char) :
    (h1.length ≠ h2.length → hammingDistance h1 h2 = 64) ∧
    (h1.length = h2.length →
      hammingDistance h1 h2 = ((h1.zip h2).filter fun p => p.1 ≠ p.2).length) := by
  constructor
  · intro h
    simp [hammingDistance, h]
  · intro h
    simp [hammingDistance, h, countDiffs_eq_countP h1 h2 h]

/-- Witness for C10 at concrete strings of unequal and equal length. -/
theorem hammingDistance_spec_witness :
    hammingDistance ['a', 'b'] ['b'] = 64 ∧
      hammingDistance ['a', 'b'] ['a', 'c'] =
        (((['a', 'b']).zip ['a', 'c']).filter fun p => p.1 ≠ p.2).length :=
  ⟨(hammingDistance_spec ['a', 'b'] ['b']).1 (by decide),
    (hammingDistance_spec ['a', 'b'] ['a', 'c']).2 (by decide)⟩

/-! ## Claim C1: post-processing precedence, and C4: the duplicate
threshold -/

/-- C1: per candidate, the combined percentage follows exactly the coded
precedence: duplicate override to 99.9; else bio-data blend
`0.75·raw + 0.25·aux`; else confidence ≥ 0.60 boost `min(100, raw×1.05)`;
else the raw similarity, where raw is `calculateSimilarity` of the query
against the candidate. -/
theorem scoreOne_precedence (qf : List ℝ) (qh : Option (List Char))
    (conf : ℝ) (idx : ℕ) (c : Cattle) :
    (scoreOne qf qh conf idx c).rawPercentage =
        calculateSimilarity qf c.featureVector ∧
    (isDupCase qh c → (scoreOne qf qh conf idx c).matchPercentage = 99.9) ∧
    (¬ isDupCase qh c → ∀ bv, c.bioData = some bv →
      (scoreOne qf qh conf idx c).matchPercentage =
        0.75 * calculateSimilarity qf c.featureVector +
          0.25 * bioDataMatchScore bv) ∧
    (¬ isDupCase qh c → c.bioData = none → 0.60 ≤ conf →
      (scoreOne qf qh conf idx c).matchPercentage =
        min 100 (calculateSimilarity qf c.featureVector * 1.05)) ∧
    (¬ isDupCase qh c → c.bioData = none → conf < 0.60 →
      (scoreOne qf qh conf idx c).matchPercentage =
        calculateSimilarity qf c.featureVector) := by
  obtain ⟨fv, ph, bd⟩ := c
  refine ⟨by cases ph <;> cases qh <;> simp [scoreOne], ?_, ?_, ?_, ?_⟩
  · rintro ⟨qs, cs, rfl, hph, hle⟩
    cases ph with
    | none => simp at hph
    | some a =>
      simp only [Option.some.injEq] at hph
      subst hph
      have hdec : decide (hammingDistance qs a ≤ 150) = true := decide_eq_true hle
      simp [scoreOne, hdec]
  · intro hnd bv hbd
    simp only at hbd
    subst hbd
    cases ph with
    | none => simp [scoreOne]; ring
    | some a =>
      cases qh with
      | none => simp [scoreOne]; ring
      | some qs =>
        have hgt : ¬ hammingDistance qs a ≤ 150 := fun hle =>
          hnd ⟨qs, a, rfl, rfl, hle⟩
        simp [scoreOne, hgt]
        ring
  · intro hnd hbd hconf
    simp only at hbd
    subst hbd
    cases ph with
    | none => simp [scoreOne, hconf]
    | some a =>
      cases qh with
      | none => simp [scoreOne, hconf]
      | some qs =>
        have hgt : ¬ hammingDistance qs a ≤ 150 := fun hle =>
          hnd ⟨qs, a, rfl, rfl, hle⟩
        simp [scoreOne, hgt, hconf]
  · intro hnd hbd hconf
    simp only at hbd
    subst hbd
    have hconf2 : ¬ (0.60 : ℝ) ≤ conf := not_le.mpr hconf
    cases ph with
    | none => simp [scoreOne, hconf2]
    | some a =>
      cases qh with
      | none => simp [scoreOne, hconf2]
      | some qs =>
        have hgt : ¬ hammingDistance qs a ≤ 150 := fun hle =>
          hnd ⟨qs, a, rfl, rfl, hle⟩
        simp [scoreOne, hgt, hconf2]

/-- Witness for C1: a candidate in the duplicate case receives exactly
99.9. -/
theorem scoreOne_precedence_witness :
    isDupCase (some ['0']) ⟨[], some ['0'], none⟩ ∧
      (scoreOne [] (some ['0']) 0 0 ⟨[], some ['0'], none⟩).matchPercentage
        = 99.9 :=
  ⟨⟨['0'], ['0'], rfl, rfl, by decide⟩,
    (scoreOne_precedence [] (some ['0']) 0 0 ⟨[], some ['0'], none⟩).2.1
      ⟨['0'], ['0'], rfl, rfl, by decide⟩⟩

/-- C4 fails on the code: the threshold 150 exceeds the largest possible
Hamming distance of the 16-character hex fingerprints (16; even
length-mismatched fingerprints yield 64), so the maximally distant
fingerprint pair — all-zero bits against all-one bits, distance 16 — is
still marked an exact duplicate and forced to 99.9. -/
theorem dupThreshold_accepts_max_distance :
    hammingDistance cexDupQueryHash cexDupCattleHash = 16 ∧
    (scoreOne [] (some cexDupQueryHash) 0 0
      ⟨[], some cexDupCattleHash, none⟩).isExactDuplicate = true ∧
    (scoreOne [] (some cexDupQueryHash) 0 0
      ⟨[], some cexDupCattleHash, none⟩).matchPercentage = 99.9 := by
  have hd : hammingDistance cexDupQueryHash cexDupCattleHash = 16 := by decide
  refine ⟨hd, ?_, ?_⟩ <;> simp [scoreOne, hd]

/-! ## Claim C6: ranking is a stable descending sort -/

theorem insertDesc_perm (x : MatchResult) (l : List MatchResult) :
    (insertDesc x l).Perm (x :: l) := by
  induction l with
  | nil => simp [insertDesc]
  | cons y t ih =>
    by_cases hxy : x.matchPercentage < y.matchPercentage
    · simp only [insertDesc, if_pos hxy]
      exact (ih.cons y).trans (List.Perm.swap x y t)
    · simp [insertDesc, hxy]

theorem sortDesc_perm (l : List MatchResult) : (sortDesc l).Perm l := by
  induction l with
  | nil => simp [sortDesc]
  | cons x t ih =>
    exact (insertDesc_perm x (sortDesc t)).trans (ih.cons x)

theorem insertDesc_pairwise (x : MatchResult) (l : List MatchResult)
    (hl : l.Pairwise beforeInSort)
    (hidx : ∀ y ∈ l, x.idx < y.idx) :
    (insertDesc x l).Pairwise beforeInSort := by
  induction l with
  | nil => simp [insertDesc]
  | cons y t ih =>
    rcases List.pairwise_cons.mp hl with ⟨hyt, ht⟩
    by_cases hxy : x.matchPercentage < y.matchPercentage
    · simp only [insertDesc, if_pos hxy]
      refine List.pairwise_cons.mpr ⟨?_, ih ht fun z hz => hidx z (by simp [hz])⟩
      intro z hz
      rcases List.mem_cons.mp ((insertDesc_perm x t).mem_iff.mp hz) with rfl | hzt
      · exact Or.inl hxy
      · exact hyt z hzt
    · simp only [insertDesc, if_neg hxy]
      push_neg at hxy
      refine List.pairwise_cons.mpr ⟨?_, List.pairwise_cons.mpr ⟨hyt, ht⟩⟩
      intro z hz
      rcases List.mem_cons.mp hz with rfl | hzt
      · rcases lt_or_eq_of_le hxy with h | h
        · exact Or.inl h
        · exact Or.inr ⟨h.symm, hidx z (by simp)⟩
      · rcases hyt z hzt with h | h
        · exact Or.inl (lt_of_lt_of_le h hxy)
        · rcases lt_or_eq_of_le hxy with h2 | h2
          · exact Or.inl (h.1 ▸ h2)
          · exact Or.inr ⟨by rw [← h2, h.1], hidx z (List.mem_cons_of_mem y hzt)⟩

theorem sortDesc_pairwise (l : List MatchResult)
    (h : l.Pairwise fun a b => a.idx < b.idx) :
    (sortDesc l).Pairwise beforeInSort := by
  induction l with
  | nil => simp [sortDesc]
  | cons x t ih =>
    rcases List.pairwise_cons.mp h with ⟨hxt, ht⟩
    exact insertDesc_pairwise x (sortDesc t) (ih ht)
      fun y hy => hxt y ((sortDesc_perm t).mem_iff.mp hy)

theorem scoreAllFrom_idx_le (qf : List ℝ) (qh : Option (List Char)) (conf : ℝ) :
    ∀ (l : List Cattle) (i : ℕ),
      ∀ r ∈ scoreAllFrom qf qh conf i l, i ≤ r.idx := by
  intro l
  induction l with
  | nil => intro i r hr; simp [scoreAllFrom] at hr
  | cons c cs ih =>
    intro i r hr
    rcases List.mem_cons.mp hr with rfl | hmem
    · simp [scoreOne]
    · exact le_trans (Nat.le_succ i) (ih (i + 1) r hmem)

theorem scoreAllFrom_pairwise_idx (qf : List ℝ) (qh : Option (List Char)) (conf : ℝ) :
    ∀ (l : List Cattle) (i : ℕ),
      (scoreAllFrom qf qh conf i l).Pairwise fun a b => a.idx < b.idx := by
  intro l
  induction l with
  | nil => intro i; simp [scoreAllFrom]
  | cons c cs ih =>
    intro i
    refine List.pairwise_cons.mpr ⟨?_, ih (i + 1)⟩
    intro r hr
    have h1 : i + 1 ≤ r.idx := scoreAllFrom_idx_le qf qh conf cs (i + 1) r hr
    have h2 : (scoreOne qf qh conf i c).idx = i := by simp [scoreOne]
    omega

/-- C6: the ranked output is sorted descending by combined percentage with
ties broken by enrollment order (every earlier element either strictly
beats a later one or ties it with a smaller enrollment index), it is a
permutation of the scored candidates, and the empty reference set yields
the empty list. -/
theorem processMatches_sorted_stable (qf : List ℝ) (qh : Option (List Char))
    (conf : ℝ) (cattle : List Cattle) :
    (processMatches qf qh conf cattle).Pairwise beforeInSort ∧
    (processMatches qf qh conf cattle).Perm
      (scoreAllFrom qf qh conf 0 cattle) ∧
    processMatches qf qh conf [] = [] :=
  ⟨sortDesc_pairwise _ (scoreAllFrom_pairwise_idx qf qh conf cattle 0),
    sortDesc_perm _, rfl⟩

/-! ## Claim C5: the feature vector has 28 entries in [0,1] -/

/-- C5: for a non-degenerate image (both sides at least 5 pixels, so every
spatial partition used by the extractor is nonempty), the feature vector
has exactly 28 entries and every entry lies in [0,1]. -/
theorem extractFeatureVector_spec (data : ℕ → ℕ) (w h : ℕ)
    (_hw : 5 ≤ w) (_hh : 5 ≤ h) :
    (extractFeatureVector data w h).length = 28 ∧
    ∀ v ∈ extractFeatureVector data w h, 0 ≤ v ∧ v ≤ 1 := by
  constructor
  · rfl
  · intro v hv
    simp only [extractFeatureVector, List.mem_map] at hv
    rcases hv with ⟨f, _, rfl⟩
    exact ⟨le_max_left 0 _, max_le (by norm_num) (min_le_left _ _)⟩

/-- Witness for C5 at a concrete 5×5 all-gray image. -/
theorem extractFeatureVector_spec_witness :
    ((5:ℕ) ≤ 5 ∧ (5:ℕ) ≤ 5) ∧
      ((extractFeatureVector (fun _ => 128) 5 5).length = 28 ∧
        ∀ v ∈ extractFeatureVector (fun _ => 128) 5 5, 0 ≤ v ∧ v ≤ 1) :=
  ⟨⟨le_refl 5, le_refl 5⟩,
    extractFeatureVector_spec (fun _ => 128) 5 5 (le_refl 5) (le_refl 5)⟩

/-! ## Claim C3: shape and content of the perceptual fingerprint -/

theorem binaryHash_length (img : ImageData) : (binaryHash img).length = 64 := rfl

theorem calculatePerceptualHash_length (img : ImageData) :
    (calculatePerceptualHash img).length = 16 := rfl

/-- Counterexample to C3: the returned hash has 16 characters (64 bits
before hex packing), not one per cell of the 32×32 downsample grid, which
would require 1024. -/
theorem perceptualHash_length_ne_gridSquared :
    (calculatePerceptualHash cex3Img).length = 16 ∧
      (calculatePerceptualHash cex3Img).length ≠ 32 * 32 := by
  refine ⟨rfl, ?_⟩
  rw [calculatePerceptualHash_length]
  norm_num

/-- C3 (amended): the fingerprint is 16 hex characters packing a 64-bit
string with one bit per cell of the top-left 8×8 block of the 32×32
downsample grid, each bit '1' exactly when that cell's luminance exceeds
the grid's overall mean luminance. -/
theorem perceptualHash_bits (img : ImageData) :
    (calculatePerceptualHash img).length = 16 ∧
    (binaryHash img).length = 64 ∧
    calculatePerceptualHash img = hexOfBits (binaryHash img) ∧
    ∀ y x : ℕ, y < 8 → x < 8 →
      (binaryHash img).getD (y * 8 + x) '0' =
        if hashOverallAvg img < resizedGray img y x then '1' else '0' := by
  refine ⟨rfl, rfl, rfl, ?_⟩
  intro y x hy hx
  interval_cases y <;> interval_cases x <;> rfl

/-- Witness for C3 (amended): bit (0,0) of the concrete 1×1 image's hash. -/
theorem perceptualHash_bits_witness :
    (0:ℕ) < 8 ∧
      (binaryHash cex3Img).getD (0 * 8 + 0) '0' =
        (if hashOverallAvg cex3Img < resizedGray cex3Img 0 0 then '1' else '0') :=
  ⟨by norm_num,
    (perceptualHash_bits cex3Img).2.2.2 0 0 (by norm_num) (by norm_num)⟩

/-! ## Claim C7: histograms versus the clip limit -/

theorem cex7_clipCount : clipLimitCountOf 2 1 = 0 := by
  unfold clipLimitCountOf
  norm_num

theorem cex7_clipped (bin : ℕ) : clippedHistBin cex7data 8 0 1 0 1 2 bin = 0 := by
  unfold clippedHistBin
  rw [show tilePixelCount 0 1 0 1 = 1 from rfl, cex7_clipCount]
  exact Nat.min_zero _

theorem cex7_cdf (v : ℕ) : tileCdf cex7data 8 0 1 0 1 2 v = 0 := by
  unfold tileCdf
  simp [cex7_clipped]

theorem cex7_cdfMin : tileCdfMin cex7data 8 0 1 0 1 2 = 0 := by
  unfold tileCdfMin
  have hnone : (((List.range 256).map fun i =>
      tileCdf cex7data 8 0 1 0 1 2 i).find? fun v => decide (0 < v)) = none := by
    rw [List.find?_eq_none]
    intro x hx
    simp only [List.mem_map] at hx
    rcases hx with ⟨i, _, rfl⟩
    simp [cex7_cdf]
  rw [hnone]
  rfl

theorem cex7_remap : remapPixel cex7data 8 0 1 0 1 2 100 = 0 := by
  simp only [remapPixel, cex7_cdfMin, cex7_cdf]
  norm_num

theorem cex7_out0 : applyCLAHE cex7data 8 8 2 8 0 = 0 := by
  simp only [applyCLAHE]
  norm_num
  exact cex7_remap

/-- Counterexample to C7: on the constant 8×8 gray-100 image with the
default clipLimit 2 and tileSize 8, every tile holds one pixel, so the
clip limit count is floor(2·1/256) = 0 — yet the luminance histogram of
tile (0,0), recomputed on the output of `applyCLAHE`, has a bin of
count 1. -/
theorem outputHist_exceeds_clipLimit :
    clipLimitCountOf 2 (tilePixelCount 0 1 0 1) <
      tileHistBin (applyCLAHE cex7data 8 8 2 8) 8 0 1 0 1 0 := by
  rw [show tilePixelCount 0 1 0 1 = 1 from rfl, cex7_clipCount]
  unfold tileHistBin
  rw [show List.range 1 = [0] from rfl]
  simp [cex7_out0]

/-- C7 (amended): the histogram bounded by the clip limit is the clipped
histogram from which `applyCLAHE` builds its CDF: every clipped bin is at
most floor(clipLimit × tilePixelCount / 256). -/
theorem clippedHist_le_clipLimit (data : ℕ → ℕ)
    (width startX endX startY endY : ℕ) (clipLimit : ℚ) (bin : ℕ) :
    clippedHistBin data width startX endX startY endY clipLimit bin ≤
      clipLimitCountOf clipLimit (tilePixelCount startX endX startY endY) :=
  min_le_right _ _

end Ufugaji
